import Mathlib

/-
  Verification development for the grass trail-deformation subsystem of the
  Threefolio repository (src/environment/grass.js).

  The CPU-side recorder/packer (Grass.update) is embedded over the rationals:
  JavaScript numbers are modelled by a type JSVal that is either a rational or
  NaN, so that NaN propagation and the truthiness checks of the source can be
  reproduced exactly.  A JavaScript TypeError (reading a property of
  undefined) is modelled by returning an Except error.

  The GPU-side field evaluator (Grass.setMaterial position function) is
  embedded over the reals, with the Euclidean vector length written out via
  Real.sqrt and the TSL smoothstep / step intrinsics written as explicit
  clamp-and-polynomial definitions.
-/

set_option maxHeartbeats 1000000

namespace Threefolio

/-- A JavaScript number: either an actual (rational) value or NaN.  Arithmetic
propagates NaN; every comparison with NaN is false, as in IEEE semantics. -/
inductive JSVal where
  | num : ℚ → JSVal
  | nan : JSVal
deriving DecidableEq

namespace JSVal

/-- JavaScript subtraction, propagating NaN. -/
def sub : JSVal → JSVal → JSVal
  | num a, num b => num (a - b)
  | _, _ => nan

/-- JavaScript addition, propagating NaN. -/
def add : JSVal → JSVal → JSVal
  | num a, num b => num (a + b)
  | _, _ => nan

/-- JavaScript multiplication, propagating NaN. -/
def mul : JSVal → JSVal → JSVal
  | num a, num b => num (a * b)
  | _, _ => nan

/-- JavaScript strict greater-than; any comparison involving NaN is false. -/
def gtb : JSVal → JSVal → Bool
  | num a, num b => decide (b < a)
  | _, _ => false

end JSVal

/-- An (x, z) world position as passed to Grass.update (player or cube). -/
structure JSPos where
  x : JSVal
  z : JSVal
deriving DecidableEq

/-- A trail entry { x, z, t } as pushed by Grass.update.  The timestamp t is
always the rational time argument of the call that recorded it. -/
structure Entry where
  x : JSVal
  z : JSVal
  t : ℚ
deriving DecidableEq

/-- One packed GPU slot: interleaved position pair plus age, i.e. the values
(trailPosNode.array[2i], trailPosNode.array[2i+1], trailAgesNode.array[i]). -/
structure GpuSlot where
  x : JSVal
  z : JSVal
  age : ℚ
deriving DecidableEq

/-- The size constants chosen in Grass.setMaterial; they depend on the
isMobile test, so both configurations are kept abstract here. -/
structure GrassConfig where
  TRAIL_SIZE : ℕ
  PLAYER_SLOTS : ℕ
  CUBE_SLOTS : ℕ
deriving DecidableEq

/-- Desktop constants: TRAIL_SIZE = 80, PLAYER_SLOTS = 40, CUBE_SLOTS = 40. -/
def desktopConfig : GrassConfig := ⟨80, 40, 40⟩

/-- Mobile constants: TRAIL_SIZE = 40, PLAYER_SLOTS = 20, CUBE_SLOTS = 20. -/
def mobileConfig : GrassConfig := ⟨40, 20, 20⟩

/-- this.HOLD_TIME = 3.0 -/
def HOLD_TIME : ℚ := 3

/-- this.FADE_TIME = 1.0 -/
def FADE_TIME : ℚ := 1

/-- const SAMPLE_INTERVAL = 0.1 -/
def SAMPLE_INTERVAL : ℚ := 0.1

/-- const MOVE_THRESHOLD_SQ = 0.09 -/
def MOVE_THRESHOLD_SQ : ℚ := 0.09

/-- this.CUBE_COUNT = 32 -/
def CUBE_COUNT : ℕ := 32

/-- The mutable per-instance state touched by Grass.update, together with the
uniform arrays it uploads to. -/
structure GrassState where
  playerTrail : List Entry
  cubeTrail : List Entry
  lastSampleTime : ℚ
  lastCubeSampleTime : ℚ
  cubeLastPos : Option (List JSPos)
  slots : List GpuSlot
  cubePosNode : List JSVal
  timeNode : ℚ
deriving DecidableEq

/-- The state right after the Grass constructor ran: empty trails,
_lastSampleTime = 0, _cubeLastPos undefined, all trail slots set to the
sentinel (99999, 99999, 9999) and the cube uniform array all 99999. -/
def initGrassState (cfg : GrassConfig) : GrassState where
  playerTrail := []
  cubeTrail := []
  lastSampleTime := 0
  lastCubeSampleTime := 0
  cubeLastPos := none
  slots := List.replicate cfg.TRAIL_SIZE ⟨.num 99999, .num 99999, 9999⟩
  cubePosNode := List.replicate (CUBE_COUNT * 2) (.num 99999)
  timeNode := 0

/-- JavaScript arr.slice(-n): the last n elements of the list. -/
def takeLast (n : ℕ) (l : List α) : List α := l.drop (l.length - n)

/-- A JavaScript runtime error escaping Grass.update. -/
inductive JSError where
  | typeError
deriving DecidableEq

/-- The cube-recording for-loop of Grass.update (lines 268-277): walks
cubePositions by index i, reads this._cubeLastPos[i] (throwing a TypeError if
that slot is undefined, as `last.x` does), appends the OLD position as a
footprint when the squared displacement exceeds MOVE_THRESHOLD_SQ, and then
overwrites the remembered position for i. -/
def cubeLoopGo (now : ℚ) : List JSPos → ℕ → List JSPos → List Entry →
    Except JSError (List Entry × List JSPos)
  | [], _, lastPos, acc => .ok (acc, lastPos)
  | c :: rest, i, lastPos, acc =>
    match lastPos[i]? with
    | none => .error .typeError
    | some l =>
      let dx := c.x.sub l.x
      let dz := c.z.sub l.z
      if ((dx.mul dx).add (dz.mul dz)).gtb (.num MOVE_THRESHOLD_SQ) then
        cubeLoopGo now rest (i + 1) (lastPos.set i ⟨c.x, c.z⟩)
          (acc ++ [⟨l.x, l.z, now⟩])
      else
        cubeLoopGo now rest (i + 1) lastPos acc

/-- The whole cube-recording loop, starting at index 0 with no entries yet. -/
def cubeLoop (now : ℚ) (cubes lastPos : List JSPos) :
    Except JSError (List Entry × List JSPos) :=
  cubeLoopGo now cubes 0 lastPos []

/-- The GPU upload of Grass.update (lines 286-309): player entries fill slots
from 0, cube entries fill whatever is left, all remaining slots get the
sentinel (99999, 99999, 9999).  ages are time - e.t. -/
def packSlots (cfg : GrassConfig) (time : ℚ) (player cube : List Entry) :
    List GpuSlot :=
  let live := (player ++ cube).take cfg.TRAIL_SIZE
  live.map (fun e => ⟨e.x, e.z, time - e.t⟩) ++
    List.replicate (cfg.TRAIL_SIZE - live.length) ⟨.num 99999, .num 99999, 9999⟩

/-- Age pruning applied to a trail after a push: keep entries with
time - e.t < totalTime + 0.2 (lines 255 and 279). -/
def pruneTrail (time : ℚ) (l : List Entry) : List Entry :=
  l.filter fun e => decide (time - e.t < HOLD_TIME + FADE_TIME + 0.2)

/-- Capacity truncation applied to a trail: if it exceeds n entries, keep
only the last n, i.e. slice(-n) (lines 256-258 and 280-282). -/
def truncTrail (n : ℕ) (l : List Entry) : List Entry :=
  if n < l.length then takeLast n l else l

/-- The player-footstep block of Grass.update (lines 252-259): when grounded
and the sample interval has elapsed, push the current position, prune entries
with age ≥ totalTime + 0.2, and truncate to the PLAYER_SLOTS most recent. -/
def recordPlayer (cfg : GrassConfig) (time : ℚ) (p : JSPos) (onGround : Bool)
    (s : GrassState) : GrassState :=
  if onGround && decide (SAMPLE_INTERVAL < time - s.lastSampleTime) then
    { s with
      lastSampleTime := time
      playerTrail := truncTrail cfg.PLAYER_SLOTS
        (pruneTrail time (s.playerTrail ++ [⟨p.x, p.z, time⟩])) }
  else s

/-- The cube-footstep block of Grass.update (lines 264-283): initialize the
remembered positions on first use, run the movement-gated loop, prune the
cube trail by age, and truncate it to the CUBE_SLOTS most recent. -/
def recordCubes (cfg : GrassConfig) (time : ℚ) (cubes : List JSPos)
    (s : GrassState) : Except JSError GrassState :=
  match cubeLoop time cubes
      (s.cubeLastPos.getD (cubes.map fun c => ⟨c.x, c.z⟩)) with
  | .error e => .error e
  | .ok (newEntries, lastPos2) =>
    .ok { s with
          cubeTrail := truncTrail cfg.CUBE_SLOTS
            (pruneTrail time (s.cubeTrail ++ newEntries))
          cubeLastPos := some lastPos2 }

/-- The GPU upload step: rebuild the packed slot array from the two trails
at the current time (lines 285-309). -/
def repack (cfg : GrassConfig) (time : ℚ) (s : GrassState) : GrassState :=
  { s with slots := packSlots cfg time s.playerTrail s.cubeTrail }

/-- Grass.update(time, playerPos, onGround, cubePositions), lines 242-313.
playerPos and cubePositions are Options because the source checks their
truthiness (`if (!playerPos) return;` and `if (cubePositions)`).  The
function sets the time uniform, returns early when playerPos is absent,
records the player and cube footsteps, and finally repacks the GPU slot
array from the two trails. -/
def Grass.update (cfg : GrassConfig) (s : GrassState) (time : ℚ)
    (playerPos : Option JSPos) (onGround : Bool)
    (cubePositions : Option (List JSPos)) : Except JSError GrassState :=
  match playerPos with
  | none => .ok { s with timeNode := time * 2 }
  | some p =>
    match cubePositions with
    | none =>
      .ok (repack cfg time
        (recordPlayer cfg time p onGround { s with timeNode := time * 2 }))
    | some cubes =>
      match recordCubes cfg time cubes
          (recordPlayer cfg time p onGround { s with timeNode := time * 2 }) with
      | .error e => .error e
      | .ok s2 => .ok (repack cfg time s2)

/-- One frame input to Grass.update. -/
structure UpdateInput where
  time : ℚ
  playerPos : Option JSPos
  onGround : Bool
  cubePositions : Option (List JSPos)
deriving DecidableEq

/-- A finite sequence of Grass.update calls, stopping at the first thrown
error (a thrown TypeError aborts the caller's frame). -/
def runUpdates (cfg : GrassConfig) : GrassState → List UpdateInput →
    Except JSError GrassState
  | s, [] => .ok s
  | s, u :: rest =>
    match Grass.update cfg s u.time u.playerPos u.onGround u.cubePositions with
    | .error e => .error e
    | .ok s' => runUpdates cfg s' rest

/-
  GPU-side field evaluator (the positionNode function built in
  Grass.setMaterial), embedded over the reals.  vec2.length() is the
  Euclidean norm; smoothstep and step are the TSL/WGSL intrinsics.
-/

/-- WGSL/TSL smoothstep(e0, e1, x):
t = clamp((x - e0) / (e1 - e0), 0, 1); result t * t * (3 - 2 * t).
The shader uses it with e0 > e1 ("reversed edges") for falloffs. -/
noncomputable def smoothstep (e0 e1 x : ℝ) : ℝ :=
  let t := min (max ((x - e0) / (e1 - e0)) 0) 1
  t * t * (3 - 2 * t)

/-- WGSL/TSL step(edge, x): 0 if x < edge, else 1. -/
noncomputable def stepF (edge x : ℝ) : ℝ := if x < edge then 0 else 1

/-- this.playerRadius = uniform(1) -/
def playerRadius : ℝ := 1

/-- this.playerStrength = uniform(1.2) -/
def playerStrength : ℝ := 1.2

/-- this.cubeRadius = uniform(0.8) -/
def cubeRadius : ℝ := 0.8

/-- this.cubeStrength = uniform(1.0) -/
def cubeStrength : ℝ := 1

/-- vec2 length: the Euclidean norm of an (x, z) pair. -/
noncomputable def vlen (v : ℝ × ℝ) : ℝ := Real.sqrt (v.1 ^ 2 + v.2 ^ 2)

/-- tipness = step(vertexIndex mod 3, 0.5): 1 at the tip vertex of a blade
(loop index 0), 0 at the two base vertices. -/
noncomputable def tipness (vi : ℕ) : ℝ := stepF 0.5 ((vi % 3 : ℕ) : ℝ)

/-- One packed slot as the shader reads it back: trail position and age. -/
structure EvalSlot where
  x : ℝ
  z : ℝ
  age : ℝ

/-- dist = |bladePosition - trailPoint| + 0.001 (avoid divide by zero). -/
noncomputable def slotDist (s : EvalSlot) (px pz : ℝ) : ℝ :=
  vlen (px - s.x, pz - s.z) + 0.001

/-- spatialFalloff = smoothstep(playerRadius, 0, dist). -/
noncomputable def spatialFalloff (s : EvalSlot) (px pz : ℝ) : ℝ :=
  smoothstep playerRadius 0 (slotDist s px pz)

/-- timeFalloff = smoothstep(4.0, 3.0, age): full for 3 s, fading over 1 s
(4.0 = HOLD_TIME + FADE_TIME, 3.0 = HOLD_TIME). -/
noncomputable def timeFalloff (age : ℝ) : ℝ := smoothstep 4 3 age

/-- weight = spatialFalloff * timeFalloff. -/
noncomputable def slotWeight (s : EvalSlot) (px pz : ℝ) : ℝ :=
  spatialFalloff s px pz * timeFalloff s.age

/-- contribution = (delta / dist) * weight for one slot. -/
noncomputable def slotContribution (s : EvalSlot) (px pz : ℝ) : ℝ × ℝ :=
  let d := slotDist s px pz
  let w := slotWeight s px pz
  ((px - s.x) / d * w, (pz - s.z) / d * w)

/-- The trail loop: totalPush starts at vec2(0,0) and is replaced by a slot's
contribution exactly when that contribution has strictly larger length. -/
noncomputable def bestPush (slots : List EvalSlot) (px pz : ℝ) : ℝ × ℝ :=
  slots.foldl
    (fun acc s =>
      let c := slotContribution s px pz
      if vlen acc < vlen c then c else acc)
    (0, 0)

/-- clampedPush = totalPush * playerStrength * tipness: the displacement the
trail loop finally adds to the vertex (x and z components). -/
noncomputable def trailDisplacement (slots : List EvalSlot) (px pz : ℝ)
    (vi : ℕ) : ℝ × ℝ :=
  let b := bestPush slots px pz
  (b.1 * playerStrength * tipness vi, b.2 * playerStrength * tipness vi)

/-- One iteration of the cube loop: cubeContrib = cubeDir * cubeSpatial with
cubeSpatial = smoothstep(cubeRadius, 0, cubeDist), no time decay. -/
noncomputable def cubeSlotContribution (c : ℝ × ℝ) (px pz : ℝ) : ℝ × ℝ :=
  let d := vlen (px - c.1, pz - c.2) + 0.001
  let w := smoothstep cubeRadius 0 d
  ((px - c.1) / d * w, (pz - c.2) / d * w)

/-- The cube loop over CUBE_COUNT slots, keeping the max contribution. -/
noncomputable def cubeBestPush (cs : List (ℝ × ℝ)) (px pz : ℝ) : ℝ × ℝ :=
  cs.foldl
    (fun acc c =>
      let k := cubeSlotContribution c px pz
      if vlen acc < vlen k then k else acc)
    (0, 0)

/-- cubePush * cubeStrength * tipness: the displacement added by the cube
channel (x and z components). -/
noncomputable def cubeDisplacement (cs : List (ℝ × ℝ)) (px pz : ℝ)
    (vi : ℕ) : ℝ × ℝ :=
  let b := cubeBestPush cs px pz
  (b.1 * cubeStrength * tipness vi, b.2 * cubeStrength * tipness vi)

/-
  Helper lemmas about the falloff functions and the Euclidean length.
-/

theorem smoothstep_nonneg (e0 e1 x : ℝ) : 0 ≤ smoothstep e0 e1 x := by
  unfold smoothstep
  set t := min (max ((x - e0) / (e1 - e0)) 0) 1 with ht
  have h0 : 0 ≤ t := le_min (le_max_right _ 0) zero_le_one
  have h1 : t ≤ 1 := min_le_right _ 1
  have : (0 : ℝ) ≤ 3 - 2 * t := by linarith
  positivity

theorem smoothstep_le_one (e0 e1 x : ℝ) : smoothstep e0 e1 x ≤ 1 := by
  unfold smoothstep
  show min (max ((x - e0) / (e1 - e0)) 0) 1 * min (max ((x - e0) / (e1 - e0)) 0) 1 *
      (3 - 2 * min (max ((x - e0) / (e1 - e0)) 0) 1) ≤ 1
  set t := min (max ((x - e0) / (e1 - e0)) 0) 1 with ht
  have h0 : 0 ≤ t := le_min (le_max_right _ 0) zero_le_one
  have h1 : t ≤ 1 := min_le_right _ 1
  nlinarith [mul_nonneg (sq_nonneg (1 - t)) (show (0 : ℝ) ≤ 1 + 2 * t by linarith)]

theorem smoothstep_eq_zero {e0 e1 x : ℝ} (h1 : e1 < e0) (h2 : e0 ≤ x) :
    smoothstep e0 e1 x = 0 := by
  unfold smoothstep
  have hu : (x - e0) / (e1 - e0) ≤ 0 :=
    div_nonpos_iff.mpr (Or.inl ⟨by linarith, by linarith⟩)
  rw [max_eq_right hu, min_eq_left zero_le_one]
  ring

theorem smoothstep_eq_one {e0 e1 x : ℝ} (h1 : e1 < e0) (h2 : x ≤ e1) :
    smoothstep e0 e1 x = 1 := by
  unfold smoothstep
  have hu : (1 : ℝ) ≤ (x - e0) / (e1 - e0) := by
    rw [le_div_iff_of_neg (by linarith : e1 - e0 < 0)]
    linarith
  rw [max_eq_left (by linarith), min_eq_right hu]
  ring

theorem vlen_nonneg (v : ℝ × ℝ) : 0 ≤ vlen v := Real.sqrt_nonneg _

theorem vlen_zero : vlen ((0 : ℝ), (0 : ℝ)) = 0 := by
  simp [vlen]

theorem vlen_mul_right (a b c : ℝ) : vlen (a * c, b * c) = vlen (a, b) * |c| := by
  simp only [vlen]
  rw [show (a * c) ^ 2 + (b * c) ^ 2 = (a ^ 2 + b ^ 2) * c ^ 2 by ring,
    Real.sqrt_mul (by positivity), Real.sqrt_sq_eq_abs]

theorem slotDist_pos (s : EvalSlot) (px pz : ℝ) : 0 < slotDist s px pz := by
  have h := vlen_nonneg (px - s.x, pz - s.z)
  unfold slotDist
  norm_num
  linarith

theorem slotWeight_nonneg (s : EvalSlot) (px pz : ℝ) :
    0 ≤ slotWeight s px pz :=
  mul_nonneg (smoothstep_nonneg _ _ _) (smoothstep_nonneg _ _ _)

theorem slotWeight_le_one (s : EvalSlot) (px pz : ℝ) :
    slotWeight s px pz ≤ 1 :=
  mul_le_one₀ (smoothstep_le_one _ _ _) (smoothstep_nonneg _ _ _)
    (smoothstep_le_one _ _ _)

theorem vlen_slotContribution_le_one (s : EvalSlot) (px pz : ℝ) :
    vlen (slotContribution s px pz) ≤ 1 := by
  have hw0 : 0 ≤ slotWeight s px pz := slotWeight_nonneg s px pz
  have hw1 : slotWeight s px pz ≤ 1 := slotWeight_le_one s px pz
  have hd : 0 < slotDist s px pz := slotDist_pos s px pz
  have hL : vlen (px - s.x, pz - s.z) ≤ slotDist s px pz := by
    unfold slotDist; norm_num
  show vlen ((px - s.x) / slotDist s px pz * slotWeight s px pz,
      (pz - s.z) / slotDist s px pz * slotWeight s px pz) ≤ 1
  rw [vlen_mul_right]
  have hdiv : vlen ((px - s.x) / slotDist s px pz,
      (pz - s.z) / slotDist s px pz) ≤ 1 := by
    rw [div_eq_mul_inv (px - s.x), div_eq_mul_inv (pz - s.z), vlen_mul_right,
      abs_of_nonneg (le_of_lt (inv_pos.mpr hd))]
    rw [← div_eq_mul_inv]
    exact div_le_one_of_le₀ hL (le_of_lt hd)
  calc vlen ((px - s.x) / slotDist s px pz, (pz - s.z) / slotDist s px pz) *
        |slotWeight s px pz|
      ≤ 1 * 1 := by
        apply mul_le_mul hdiv _ (abs_nonneg _) zero_le_one
        rw [abs_of_nonneg hw0]; exact hw1
    _ = 1 := by norm_num

theorem vlen_bestPush_le_one (slots : List EvalSlot) (px pz : ℝ) :
    vlen (bestPush slots px pz) ≤ 1 := by
  unfold bestPush
  have h : ∀ (l : List EvalSlot) (acc : ℝ × ℝ), vlen acc ≤ 1 →
      vlen (l.foldl
        (fun acc s =>
          let c := slotContribution s px pz
          if vlen acc < vlen c then c else acc) acc) ≤ 1 := by
    intro l
    induction l with
    | nil => intro acc hacc; simpa using hacc
    | cons s rest ih =>
      intro acc hacc
      rw [List.foldl_cons]
      apply ih
      by_cases hc : vlen acc < vlen (slotContribution s px pz)
      · simpa [hc] using vlen_slotContribution_le_one s px pz
      · simpa [hc] using hacc
  apply h
  rw [vlen_zero]
  exact zero_le_one

theorem tipness_eq_zero_or_one (vi : ℕ) : tipness vi = 0 ∨ tipness vi = 1 := by
  unfold tipness stepF
  split
  · exact Or.inl rfl
  · exact Or.inr rfl

/-- C3: a slot holding the packer's sentinel values (positions 99999, age
9999) has evaluator weight spatialFalloff * timeFalloff equal to 0 at every
surface-point position, so a sentinel slot never contributes displacement
(its contribution vector is (0, 0)). -/
theorem C3_sentinel_weight_zero (px pz : ℝ) :
    slotWeight ⟨99999, 99999, 9999⟩ px pz = 0 ∧
    slotContribution ⟨99999, 99999, 9999⟩ px pz = (0, 0) := by
  have ht : timeFalloff (9999 : ℝ) = 0 := by
    unfold timeFalloff
    exact smoothstep_eq_zero (by norm_num) (by norm_num)
  have hw : slotWeight ⟨99999, 99999, 9999⟩ px pz = 0 := by
    unfold slotWeight
    rw [show (EvalSlot.mk 99999 99999 9999).age = (9999 : ℝ) from rfl, ht,
      mul_zero]
  refine ⟨hw, ?_⟩
  show ((px - 99999) / slotDist ⟨99999, 99999, 9999⟩ px pz *
      slotWeight ⟨99999, 99999, 9999⟩ px pz,
      (pz - 99999) / slotDist ⟨99999, 99999, 9999⟩ px pz *
      slotWeight ⟨99999, 99999, 9999⟩ px pz) = (0, 0)
  rw [hw, mul_zero, mul_zero]

/-- C4: the displacement the trail loop adds to a vertex, that is the
best-contribution vector scaled by playerStrength and tipness, always has
Euclidean length at most playerStrength (= 1.2), for every slot-array
contents, every surface point, and every vertex index. -/
theorem C4_trailDisplacement_le_strength (slots : List EvalSlot)
    (px pz : ℝ) (vi : ℕ) :
    vlen (trailDisplacement slots px pz vi) ≤ playerStrength := by
  have hb := vlen_bestPush_le_one slots px pz
  have hb0 := vlen_nonneg (bestPush slots px pz)
  have htip : |tipness vi| ≤ 1 := by
    rcases tipness_eq_zero_or_one vi with h | h <;> rw [h] <;> norm_num
  show vlen ((bestPush slots px pz).1 * playerStrength * tipness vi,
      (bestPush slots px pz).2 * playerStrength * tipness vi) ≤ playerStrength
  rw [vlen_mul_right, vlen_mul_right]
  rw [show ((bestPush slots px pz).1, (bestPush slots px pz).2) =
    bestPush slots px pz from rfl]
  have hs : |playerStrength| = playerStrength := by
    unfold playerStrength; norm_num
  rw [hs]
  have habs := abs_nonneg (tipness vi)
  have hstr : (0 : ℝ) < playerStrength := by unfold playerStrength; norm_num
  have hvt : vlen (bestPush slots px pz) * |tipness vi| ≤ 1 :=
    mul_le_one₀ hb habs htip
  calc vlen (bestPush slots px pz) * playerStrength * |tipness vi|
      = vlen (bestPush slots px pz) * |tipness vi| * playerStrength := by ring
    _ ≤ 1 * playerStrength := mul_le_mul_of_nonneg_right hvt (le_of_lt hstr)
    _ = playerStrength := one_mul _

/-- C5: the temporal falloff age ↦ smoothstep(HOLD_TIME + FADE_TIME,
HOLD_TIME, age) = smoothstep(4, 3, age) used by the evaluator is exactly 1
for every age ≤ HOLD_TIME = 3, non-increasing as age increases from 3 to 4,
and exactly 0 for every age ≥ HOLD_TIME + FADE_TIME = 4. -/
theorem C5_timeFalloff_profile :
    (∀ a : ℝ, a ≤ 3 → timeFalloff a = 1) ∧
    (∀ a b : ℝ, 3 ≤ a → a ≤ b → b ≤ 4 → timeFalloff b ≤ timeFalloff a) ∧
    (∀ a : ℝ, 4 ≤ a → timeFalloff a = 0) := by
  refine ⟨fun a ha => ?_, fun a b h3 hab hb4 => ?_, fun a ha => ?_⟩
  · unfold timeFalloff
    exact smoothstep_eq_one (by norm_num) ha
  · unfold timeFalloff smoothstep
    show min (max ((b - 4) / (3 - 4)) 0) 1 * min (max ((b - 4) / (3 - 4)) 0) 1 *
        (3 - 2 * min (max ((b - 4) / (3 - 4)) 0) 1) ≤
      min (max ((a - 4) / (3 - 4)) 0) 1 * min (max ((a - 4) / (3 - 4)) 0) 1 *
        (3 - 2 * min (max ((a - 4) / (3 - 4)) 0) 1)
    have e : ∀ x : ℝ, (x - 4) / (3 - 4) = 4 - x := by
      intro x
      rw [div_eq_iff (by norm_num : (3 : ℝ) - 4 ≠ 0)]
      ring
    rw [e a, e b]
    have hp0 : (0 : ℝ) ≤ 4 - a := by linarith
    have hq0 : (0 : ℝ) ≤ 4 - b := by linarith
    have hp1 : 4 - a ≤ 1 := by linarith
    have hq1 : 4 - b ≤ 1 := by linarith
    have hba : 4 - b ≤ 4 - a := by linarith
    rw [max_eq_left hq0, max_eq_left hp0, min_eq_left hq1, min_eq_left hp1]
    nlinarith [mul_nonneg (sub_nonneg.mpr hba) (mul_nonneg hp0 (sub_nonneg.mpr hp1)),
      mul_nonneg (sub_nonneg.mpr hba) (mul_nonneg hq0 (sub_nonneg.mpr hq1)),
      mul_nonneg (sub_nonneg.mpr hba) (mul_nonneg hp0 (sub_nonneg.mpr hq1)),
      mul_nonneg (sub_nonneg.mpr hba) (mul_nonneg hq0 (sub_nonneg.mpr hp1))]
  · unfold timeFalloff
    exact smoothstep_eq_zero (by norm_num) ha

/-- Witness for C5 at concrete ages 2, 3.2 versus 3.7, and 5. -/
theorem C5_witness :
    ((2 : ℝ) ≤ 3 ∧ timeFalloff 2 = 1) ∧
    ((3 : ℝ) ≤ 3.2 ∧ (3.2 : ℝ) ≤ 3.7 ∧ (3.7 : ℝ) ≤ 4 ∧
      timeFalloff 3.7 ≤ timeFalloff 3.2) ∧
    ((4 : ℝ) ≤ 5 ∧ timeFalloff 5 = 0) :=
  ⟨⟨by norm_num, C5_timeFalloff_profile.1 2 (by norm_num)⟩,
   ⟨by norm_num, by norm_num, by norm_num,
     C5_timeFalloff_profile.2.1 3.2 3.7 (by norm_num) (by norm_num)
       (by norm_num)⟩,
   ⟨by norm_num, C5_timeFalloff_profile.2.2 5 (by norm_num)⟩⟩

/-
  Structural lemmas about the two recording phases and about Grass.update.
-/

theorem takeLast_length_le (n : ℕ) (l : List Entry) :
    (takeLast n l).length ≤ n ∨ takeLast n l = l := by
  rw [takeLast]
  by_cases h : n ≤ l.length
  · left
    rw [List.length_drop]
    omega
  · right
    rw [show l.length - n = 0 from by omega, List.drop_zero]

theorem truncTrail_length (n : ℕ) (l : List Entry) :
    (truncTrail n l).length ≤ n := by
  rw [truncTrail]
  split
  · rw [takeLast, List.length_drop]
    omega
  · omega

theorem mem_of_mem_truncTrail {n : ℕ} {l : List Entry} {e : Entry}
    (h : e ∈ truncTrail n l) : e ∈ l := by
  rw [truncTrail] at h
  split at h
  · rw [takeLast] at h
    exact List.mem_of_mem_drop h
  · exact h

theorem mem_pruneTrail {time : ℚ} {l : List Entry} {e : Entry}
    (h : e ∈ pruneTrail time l) :
    e ∈ l ∧ time - e.t < HOLD_TIME + FADE_TIME + 0.2 := by
  rw [pruneTrail] at h
  have := List.mem_filter.mp h
  exact ⟨this.1, by simpa using this.2⟩

theorem mem_truncTrail_last {n : ℕ} (hn : 0 < n) (l : List Entry) (e : Entry) :
    e ∈ truncTrail n (l ++ [e]) := by
  rw [truncTrail]
  split
  · rw [takeLast, List.length_append, List.length_singleton,
      List.drop_append_of_le_length (by omega)]
    exact List.mem_append_right _ (List.mem_singleton_self _)
  · exact List.mem_append_right _ (List.mem_singleton_self _)

theorem recordPlayer_cubeTrail (cfg : GrassConfig) (time : ℚ) (p : JSPos)
    (og : Bool) (s : GrassState) :
    (recordPlayer cfg time p og s).cubeTrail = s.cubeTrail := by
  unfold recordPlayer
  split <;> rfl

theorem recordPlayer_cubeLastPos (cfg : GrassConfig) (time : ℚ) (p : JSPos)
    (og : Bool) (s : GrassState) :
    (recordPlayer cfg time p og s).cubeLastPos = s.cubeLastPos := by
  unfold recordPlayer
  split <;> rfl

theorem recordPlayer_cubePosNode (cfg : GrassConfig) (time : ℚ) (p : JSPos)
    (og : Bool) (s : GrassState) :
    (recordPlayer cfg time p og s).cubePosNode = s.cubePosNode := by
  unfold recordPlayer
  split <;> rfl

theorem recordPlayer_length (cfg : GrassConfig) (time : ℚ) (p : JSPos)
    (og : Bool) (s : GrassState)
    (h : s.playerTrail.length ≤ cfg.PLAYER_SLOTS) :
    (recordPlayer cfg time p og s).playerTrail.length ≤ cfg.PLAYER_SLOTS := by
  unfold recordPlayer
  split
  · exact truncTrail_length _ _
  · exact h

theorem recordPlayer_ages (cfg : GrassConfig) (time : ℚ) (p : JSPos)
    (og : Bool) (s : GrassState) (hg : og = true)
    (hi : SAMPLE_INTERVAL < time - s.lastSampleTime) :
    ∀ e ∈ (recordPlayer cfg time p og s).playerTrail,
      time - e.t < HOLD_TIME + FADE_TIME + 0.2 := by
  intro e he
  unfold recordPlayer at he
  rw [if_pos (by simp [hg, hi])] at he
  exact (mem_pruneTrail (mem_of_mem_truncTrail he)).2

theorem recordPlayer_mem_new (cfg : GrassConfig) (time : ℚ) (p : JSPos)
    (og : Bool) (s : GrassState) (hg : og = true)
    (hi : SAMPLE_INTERVAL < time - s.lastSampleTime)
    (hpos : 0 < cfg.PLAYER_SLOTS) :
    Entry.mk p.x p.z time ∈ (recordPlayer cfg time p og s).playerTrail := by
  unfold recordPlayer
  rw [if_pos (by simp [hg, hi])]
  show Entry.mk p.x p.z time ∈ truncTrail cfg.PLAYER_SLOTS
    (pruneTrail time (s.playerTrail ++ [⟨p.x, p.z, time⟩]))
  have hp : pruneTrail time (s.playerTrail ++ [⟨p.x, p.z, time⟩]) =
      pruneTrail time s.playerTrail ++ [Entry.mk p.x p.z time] := by
    rw [pruneTrail, List.filter_append, List.filter_singleton]
    rw [show decide (time - (Entry.mk p.x p.z time).t <
        HOLD_TIME + FADE_TIME + 0.2) = true from by
      norm_num [HOLD_TIME, FADE_TIME]]
    rfl
  rw [hp]
  exact mem_truncTrail_last hpos _ _

theorem recordCubes_ok_fields (cfg : GrassConfig) (time : ℚ)
    (cubes : List JSPos) (s s2 : GrassState)
    (h : recordCubes cfg time cubes s = .ok s2) :
    s2.playerTrail = s.playerTrail ∧ s2.lastSampleTime = s.lastSampleTime ∧
    s2.cubePosNode = s.cubePosNode ∧
    s2.cubeTrail.length ≤ cfg.CUBE_SLOTS ∧
    (∀ e ∈ s2.cubeTrail, time - e.t < HOLD_TIME + FADE_TIME + 0.2) := by
  unfold recordCubes at h
  split at h
  · exact absurd h (by simp)
  · injection h with h
    subst h
    refine ⟨rfl, rfl, rfl, truncTrail_length _ _, ?_⟩
    intro e he
    exact (mem_pruneTrail (mem_of_mem_truncTrail he)).2

theorem update_playerPos_none (cfg : GrassConfig) (s : GrassState) (time : ℚ)
    (og : Bool) (cubes : Option (List JSPos)) :
    Grass.update cfg s time none og cubes =
      .ok { s with timeNode := time * 2 } :=
  rfl

theorem update_cubes_none (cfg : GrassConfig) (s : GrassState) (time : ℚ)
    (p : JSPos) (og : Bool) :
    Grass.update cfg s time (some p) og none =
      .ok (repack cfg time
        (recordPlayer cfg time p og { s with timeNode := time * 2 })) :=
  rfl

theorem update_cubes_some_eq (cfg : GrassConfig) (s : GrassState) (time : ℚ)
    (p : JSPos) (og : Bool) (cs : List JSPos) :
    Grass.update cfg s time (some p) og (some cs) =
      match recordCubes cfg time cs
          (recordPlayer cfg time p og { s with timeNode := time * 2 }) with
      | .error e => .error e
      | .ok s2 => .ok (repack cfg time s2) :=
  rfl

theorem update_cubes_some_inv (cfg : GrassConfig) (s : GrassState) (time : ℚ)
    (p : JSPos) (og : Bool) (cs : List JSPos) (s' : GrassState)
    (h : Grass.update cfg s time (some p) og (some cs) = .ok s') :
    ∃ s2, recordCubes cfg time cs
        (recordPlayer cfg time p og { s with timeNode := time * 2 }) = .ok s2 ∧
      s' = repack cfg time s2 := by
  rw [update_cubes_some_eq] at h
  cases hC : recordCubes cfg time cs
      (recordPlayer cfg time p og { s with timeNode := time * 2 }) with
  | error e =>
    rw [hC] at h
    exact absurd h (by simp)
  | ok s2 =>
    rw [hC] at h
    injection h with h
    exact ⟨s2, rfl, h.symm⟩

theorem update_cubes_some_ok (cfg : GrassConfig) (s : GrassState) (time : ℚ)
    (p : JSPos) (og : Bool) (cs : List JSPos) (s2 : GrassState)
    (h : recordCubes cfg time cs
        (recordPlayer cfg time p og { s with timeNode := time * 2 }) = .ok s2) :
    Grass.update cfg s time (some p) og (some cs) = .ok (repack cfg time s2) := by
  rw [update_cubes_some_eq, h]

theorem repack_playerTrail (cfg : GrassConfig) (time : ℚ) (s : GrassState) :
    (repack cfg time s).playerTrail = s.playerTrail := rfl

theorem repack_cubeTrail (cfg : GrassConfig) (time : ℚ) (s : GrassState) :
    (repack cfg time s).cubeTrail = s.cubeTrail := rfl

theorem repack_cubePosNode (cfg : GrassConfig) (time : ℚ) (s : GrassState) :
    (repack cfg time s).cubePosNode = s.cubePosNode := rfl

theorem runUpdates_cons_inv (cfg : GrassConfig) (s : GrassState)
    (u : UpdateInput) (rest : List UpdateInput) (sf : GrassState)
    (h : runUpdates cfg s (u :: rest) = .ok sf) :
    ∃ s', Grass.update cfg s u.time u.playerPos u.onGround u.cubePositions
        = .ok s' ∧ runUpdates cfg s' rest = .ok sf := by
  unfold runUpdates at h
  cases hU : Grass.update cfg s u.time u.playerPos u.onGround u.cubePositions with
  | error e =>
    rw [hU] at h
    exact absurd h (by simp)
  | ok s' =>
    rw [hU] at h
    exact ⟨s', rfl, h⟩

theorem update_capacity_step (cfg : GrassConfig) (s : GrassState) (time : ℚ)
    (pp : Option JSPos) (og : Bool) (cubes : Option (List JSPos))
    (s' : GrassState)
    (h : Grass.update cfg s time pp og cubes = .ok s')
    (h1 : s.playerTrail.length ≤ cfg.PLAYER_SLOTS)
    (h2 : s.cubeTrail.length ≤ cfg.CUBE_SLOTS) :
    s'.playerTrail.length ≤ cfg.PLAYER_SLOTS ∧
    s'.cubeTrail.length ≤ cfg.CUBE_SLOTS := by
  cases pp with
  | none =>
    rw [update_playerPos_none] at h
    injection h with h
    subst h
    exact ⟨h1, h2⟩
  | some p =>
    cases cubes with
    | none =>
      rw [update_cubes_none] at h
      injection h with h
      subst h
      rw [repack_playerTrail, repack_cubeTrail, recordPlayer_cubeTrail]
      exact ⟨recordPlayer_length _ _ _ _ _ h1, h2⟩
    | some cs =>
      obtain ⟨s2, hrc, rfl⟩ := update_cubes_some_inv _ _ _ _ _ _ _ h
      obtain ⟨hpt, -, -, hlen, -⟩ := recordCubes_ok_fields _ _ _ _ _ hrc
      constructor
      · rw [repack_playerTrail, hpt]
        exact recordPlayer_length _ _ _ _ _ h1
      · rw [repack_cubeTrail]
        exact hlen

theorem update_cubePosNode_step (cfg : GrassConfig) (s : GrassState) (time : ℚ)
    (pp : Option JSPos) (og : Bool) (cubes : Option (List JSPos))
    (s' : GrassState)
    (h : Grass.update cfg s time pp og cubes = .ok s') :
    s'.cubePosNode = s.cubePosNode := by
  cases pp with
  | none =>
    rw [update_playerPos_none] at h
    injection h with h
    subst h
    rfl
  | some p =>
    cases cubes with
    | none =>
      rw [update_cubes_none] at h
      injection h with h
      subst h
      rw [repack_cubePosNode, recordPlayer_cubePosNode]
    | some cs =>
      obtain ⟨s2, hrc, rfl⟩ := update_cubes_some_inv _ _ _ _ _ _ _ h
      obtain ⟨-, -, hcp, -, -⟩ := recordCubes_ok_fields _ _ _ _ _ hrc
      rw [repack_cubePosNode, hcp, recordPlayer_cubePosNode]

theorem runUpdates_capacity (cfg : GrassConfig) (us : List UpdateInput) :
    ∀ s0 : GrassState, s0.playerTrail.length ≤ cfg.PLAYER_SLOTS →
      s0.cubeTrail.length ≤ cfg.CUBE_SLOTS →
      ∀ s, runUpdates cfg s0 us = .ok s →
        s.playerTrail.length ≤ cfg.PLAYER_SLOTS ∧
        s.cubeTrail.length ≤ cfg.CUBE_SLOTS := by
  induction us with
  | nil =>
    intro s0 h1 h2 s h
    unfold runUpdates at h
    injection h with h
    subst h
    exact ⟨h1, h2⟩
  | cons u rest ih =>
    intro s0 h1 h2 s h
    obtain ⟨s', hU, hrest⟩ := runUpdates_cons_inv _ _ _ _ _ h
    obtain ⟨g1, g2⟩ := update_capacity_step _ _ _ _ _ _ _ hU h1 h2
    exact ih s' g1 g2 s hrest

theorem runUpdates_cubePosNode (cfg : GrassConfig) (us : List UpdateInput) :
    ∀ s0 : GrassState, ∀ s, runUpdates cfg s0 us = .ok s →
      s.cubePosNode = s0.cubePosNode := by
  induction us with
  | nil =>
    intro s0 s h
    unfold runUpdates at h
    injection h with h
    subst h
    rfl
  | cons u rest ih =>
    intro s0 s h
    obtain ⟨s', hU, hrest⟩ := runUpdates_cons_inv _ _ _ _ _ h
    rw [ih s' s hrest, update_cubePosNode_step _ _ _ _ _ _ _ hU]

/-- C10: a call with a falsy playerPos sets only the time uniform (to
time * 2); the trails, the remembered cube positions, both last-sample
timestamps, the packed slot array and the cube uniform array are all left
exactly as they were, whatever the other arguments hold. -/
theorem C10_noop_without_player (cfg : GrassConfig) (s : GrassState)
    (time : ℚ) (og : Bool) (cubes : Option (List JSPos)) :
    Grass.update cfg s time none og cubes =
      .ok { s with timeNode := time * 2 } :=
  rfl

/-- C1 (amended): the two capacity bounds hold after any finite sequence of
update calls, and on every call in which a trail's recording branch actually
runs (player: grounded and sample interval elapsed; cube: cubePositions
present) every entry retained in that trail after the call has age strictly
below HOLD_TIME + FADE_TIME + 0.2.  The 0.2 slack is the bound the code
enforces; entries with HOLD_TIME + FADE_TIME ≤ age < that bound survive. -/
theorem C1_capacity_and_age_pruning :
    (∀ cfg us s, runUpdates cfg (initGrassState cfg) us = .ok s →
      s.playerTrail.length ≤ cfg.PLAYER_SLOTS ∧
      s.cubeTrail.length ≤ cfg.CUBE_SLOTS) ∧
    (∀ cfg s time p og cubes s',
      Grass.update cfg s time (some p) og cubes = .ok s' →
      ((og = true → SAMPLE_INTERVAL < time - s.lastSampleTime →
        ∀ e ∈ s'.playerTrail, time - e.t < HOLD_TIME + FADE_TIME + 0.2) ∧
       (∀ cs, cubes = some cs →
        ∀ e ∈ s'.cubeTrail, time - e.t < HOLD_TIME + FADE_TIME + 0.2))) := by
  constructor
  · intro cfg us s h
    exact runUpdates_capacity cfg us (initGrassState cfg)
      (by simp [initGrassState]) (by simp [initGrassState]) s h
  · intro cfg s time p og cubes s' h
    constructor
    · intro hg hi e he
      cases cubes with
      | none =>
        rw [update_cubes_none] at h
        injection h with h
        subst h
        rw [repack_playerTrail] at he
        exact recordPlayer_ages cfg time p og
          { s with timeNode := time * 2 } hg hi e he
      | some cs =>
        obtain ⟨s2, hrc, rfl⟩ := update_cubes_some_inv _ _ _ _ _ _ _ h
        obtain ⟨hpt, -, -, -, -⟩ := recordCubes_ok_fields _ _ _ _ _ hrc
        rw [repack_playerTrail, hpt] at he
        exact recordPlayer_ages cfg time p og
          { s with timeNode := time * 2 } hg hi e he
    · intro cs hcs e he
      subst hcs
      obtain ⟨s2, hrc, rfl⟩ := update_cubes_some_inv _ _ _ _ _ _ _ h
      obtain ⟨-, -, -, -, hage⟩ := recordCubes_ok_fields _ _ _ _ _ hrc
      rw [repack_cubeTrail] at he
      exact hage e he

/-- Input sequence exhibiting the C1 age-bound violation: a footprint is
recorded at t = 0.2 and the next call happens at t = 4.35, so the old entry
has age 4.15 ≥ HOLD_TIME + FADE_TIME yet survives the prune. -/
def C1_cex_inputs : List UpdateInput :=
  [⟨0.2, some ⟨.num 0, .num 0⟩, true, none⟩,
   ⟨4.35, some ⟨.num 1, .num 1⟩, true, none⟩]

/-- C1 counterexample: after the two calls of C1_cex_inputs the primary
trail still holds the entry with t = 0.2, whose age at the second call,
4.35 - 0.2 = 4.15, is not below HOLD_TIME + FADE_TIME = 4.  The claim's
bound age < HOLD_TIME + FADE_TIME is therefore false on the code, which
prunes at HOLD_TIME + FADE_TIME + 0.2 instead. -/
theorem C1_counterexample :
    (runUpdates desktopConfig (initGrassState desktopConfig)
        C1_cex_inputs).toOption.map GrassState.playerTrail =
      some [⟨.num 0, .num 0, 0.2⟩, ⟨.num 1, .num 1, 4.35⟩] ∧
    ¬((4.35 : ℚ) - 0.2 < HOLD_TIME + FADE_TIME) := by
  constructor
  · norm_num [C1_cex_inputs, runUpdates, Grass.update, recordPlayer,
      recordCubes, repack, pruneTrail, truncTrail, takeLast, initGrassState,
      desktopConfig, SAMPLE_INTERVAL, HOLD_TIME, FADE_TIME]
    exact ⟨_, rfl, rfl⟩
  · norm_num [HOLD_TIME, FADE_TIME]

/-- The state reached by one recording call at t = 0.2 from the initial
state, used by the C1 witness. -/
def C1_witness_state : GrassState where
  playerTrail := [⟨.num 0, .num 0, 0.2⟩]
  cubeTrail := []
  lastSampleTime := 0.2
  lastCubeSampleTime := 0
  cubeLastPos := none
  slots := packSlots desktopConfig 0.2 [⟨.num 0, .num 0, 0.2⟩] []
  cubePosNode := List.replicate (CUBE_COUNT * 2) (.num 99999)
  timeNode := 0.4

/-- Witness for C1 on a concrete one-call run. -/
theorem C1_witness :
    (runUpdates desktopConfig (initGrassState desktopConfig)
        [⟨0.2, some ⟨.num 0, .num 0⟩, true, none⟩] = .ok C1_witness_state ∧
      C1_witness_state.playerTrail.length ≤ desktopConfig.PLAYER_SLOTS ∧
      C1_witness_state.cubeTrail.length ≤ desktopConfig.CUBE_SLOTS) ∧
    (Grass.update desktopConfig (initGrassState desktopConfig) 0.2
        (some ⟨.num 0, .num 0⟩) true none = .ok C1_witness_state ∧
      SAMPLE_INTERVAL < (0.2 : ℚ) - (initGrassState desktopConfig).lastSampleTime ∧
      ∀ e ∈ C1_witness_state.playerTrail,
        (0.2 : ℚ) - e.t < HOLD_TIME + FADE_TIME + 0.2) := by
  have h1 : runUpdates desktopConfig (initGrassState desktopConfig)
      [⟨0.2, some ⟨.num 0, .num 0⟩, true, none⟩] = .ok C1_witness_state := by
    norm_num [C1_witness_state, runUpdates, Grass.update, recordPlayer,
      recordCubes, repack, pruneTrail, truncTrail, takeLast, initGrassState,
      desktopConfig, SAMPLE_INTERVAL, HOLD_TIME, FADE_TIME]
  have h2 : Grass.update desktopConfig (initGrassState desktopConfig) 0.2
      (some ⟨.num 0, .num 0⟩) true none = .ok C1_witness_state := by
    norm_num [C1_witness_state, Grass.update, recordPlayer, recordCubes,
      repack, pruneTrail, truncTrail, takeLast, initGrassState, desktopConfig,
      SAMPLE_INTERVAL, HOLD_TIME, FADE_TIME]
  obtain ⟨c1, c2⟩ := C1_capacity_and_age_pruning.1 desktopConfig _ _ h1
  have c3 := (C1_capacity_and_age_pruning.2 desktopConfig _ 0.2
    ⟨.num 0, .num 0⟩ true none _ h2).1 rfl
    (by norm_num [initGrassState, SAMPLE_INTERVAL])
  exact ⟨⟨h1, c1, c2⟩, h2,
    by norm_num [initGrassState, SAMPLE_INTERVAL], c3⟩

theorem vlen_fst_le (a b : ℝ) : |a| ≤ vlen (a, b) := by
  rw [vlen, show |a| = Real.sqrt (a ^ 2) from (Real.sqrt_sq_eq_abs a).symm]
  exact Real.sqrt_le_sqrt (by nlinarith [sq_nonneg b])

theorem cubeSlotContribution_far (px pz : ℝ) (hx : |px| ≤ 30)
    (_hz : |pz| ≤ 30) :
    cubeSlotContribution (99999, 99999) px pz = (0, 0) := by
  have h1 : |px - 99999| ≤ vlen (px - 99999, pz - 99999) := vlen_fst_le _ _
  have h2 : (99969 : ℝ) ≤ |px - 99999| := by
    have hp : px ≤ 30 := le_of_abs_le hx
    rw [abs_sub_comm]
    calc (99969 : ℝ) = 99999 - 30 := by norm_num
      _ ≤ 99999 - px := by linarith
      _ ≤ |99999 - px| := le_abs_self _
  have hL : cubeRadius ≤ vlen (px - 99999, pz - 99999) + 0.001 := by
    unfold cubeRadius
    linarith
  have hw : smoothstep cubeRadius 0
      (vlen (px - 99999, pz - 99999) + 0.001) = 0 :=
    smoothstep_eq_zero (by unfold cubeRadius; norm_num) hL
  show ((px - 99999) / (vlen (px - 99999, pz - 99999) + 0.001) *
      smoothstep cubeRadius 0 (vlen (px - 99999, pz - 99999) + 0.001),
      (pz - 99999) / (vlen (px - 99999, pz - 99999) + 0.001) *
      smoothstep cubeRadius 0 (vlen (px - 99999, pz - 99999) + 0.001)) = (0, 0)
  rw [hw, mul_zero, mul_zero]

theorem cubeBestPush_sentinel (px pz : ℝ) (hx : |px| ≤ 30) (hz : |pz| ≤ 30)
    (n : ℕ) :
    cubeBestPush (List.replicate n ((99999 : ℝ), (99999 : ℝ))) px pz
      = (0, 0) := by
  unfold cubeBestPush
  induction n with
  | zero => rfl
  | succ m ih =>
    rw [List.replicate_succ, List.foldl_cons,
      cubeSlotContribution_far px pz hx hz]
    dsimp only
    rw [ite_self]
    exact ih

/-- C6: the second instantaneous channel is never populated: every state
reachable from the initial one by any sequence of update calls still holds
the initial all-99999 cubePosNode array, and the cube evaluator loop over
those CUBE_COUNT sentinel slots yields the zero displacement at every
surface point inside the 60 x 60 grass field (|x| ≤ 30, |z| ≤ 30). -/
theorem C6_cube_channel_unpopulated :
    (∀ cfg us s, runUpdates cfg (initGrassState cfg) us = .ok s →
      s.cubePosNode = List.replicate (CUBE_COUNT * 2) (.num 99999)) ∧
    (∀ px pz : ℝ, |px| ≤ 30 → |pz| ≤ 30 → ∀ vi,
      cubeDisplacement (List.replicate CUBE_COUNT ((99999 : ℝ), (99999 : ℝ)))
        px pz vi = (0, 0)) := by
  constructor
  · intro cfg us s h
    rw [runUpdates_cubePosNode cfg us (initGrassState cfg) s h]
    rfl
  · intro px pz hx hz vi
    show ((cubeBestPush _ px pz).1 * cubeStrength * tipness vi,
      (cubeBestPush _ px pz).2 * cubeStrength * tipness vi) = (0, 0)
    rw [cubeBestPush_sentinel px pz hx hz]
    show ((0 : ℝ) * cubeStrength * tipness vi,
      (0 : ℝ) * cubeStrength * tipness vi) = (0, 0)
    rw [zero_mul, zero_mul]

/-- Witness for C6: the empty call sequence and the field point (0, 0). -/
theorem C6_witness :
    (runUpdates desktopConfig (initGrassState desktopConfig) [] =
        .ok (initGrassState desktopConfig) ∧
      (initGrassState desktopConfig).cubePosNode =
        List.replicate (CUBE_COUNT * 2) (.num 99999)) ∧
    (|(0 : ℝ)| ≤ 30 ∧ |(0 : ℝ)| ≤ 30 ∧
      cubeDisplacement (List.replicate CUBE_COUNT ((99999 : ℝ), (99999 : ℝ)))
        0 0 0 = (0, 0)) :=
  ⟨⟨rfl, C6_cube_channel_unpopulated.1 desktopConfig [] _ rfl⟩,
   ⟨by norm_num, by norm_num,
     C6_cube_channel_unpopulated.2 0 0 (by norm_num) (by norm_num) 0⟩⟩

theorem cubeLoopGo_ok (now : ℚ) :
    ∀ (cubes : List JSPos) (i : ℕ) (lastPos : List JSPos) (acc : List Entry),
      i + cubes.length ≤ lastPos.length →
      ∃ r, cubeLoopGo now cubes i lastPos acc = .ok r := by
  intro cubes
  induction cubes with
  | nil => exact fun i lastPos acc _ => ⟨_, rfl⟩
  | cons c cs ih =>
    intro i lastPos acc h
    have hi : i < lastPos.length := by
      simp only [List.length_cons] at h
      omega
    unfold cubeLoopGo
    rw [List.getElem?_eq_getElem hi]
    dsimp only
    split
    · apply ih
      rw [List.length_set]
      simp only [List.length_cons] at h
      omega
    · apply ih
      simp only [List.length_cons] at h
      omega

/-- C7 (amended): a call of update completes without an error whenever the
cubePositions list has not grown past the remembered-positions list (in
particular always when the remembered list is still uninitialized, since it
is then created from the current list); when the list HAS grown, reading the
missing remembered entry throws a TypeError that propagates out of update,
so the original claim fails (see the counterexample). -/
theorem C7_no_error_when_not_grown (cfg : GrassConfig) (s : GrassState)
    (time : ℚ) (playerPos : Option JSPos) (og : Bool)
    (cubes : Option (List JSPos))
    (h : match cubes, s.cubeLastPos with
      | some cs, some lp => cs.length ≤ lp.length
      | _, _ => True) :
    ∃ s', Grass.update cfg s time playerPos og cubes = .ok s' := by
  cases playerPos with
  | none => exact ⟨_, rfl⟩
  | some p =>
    cases cubes with
    | none => exact ⟨_, rfl⟩
    | some cs =>
      have hlen : cs.length ≤
          ((recordPlayer cfg time p og { s with timeNode := time * 2 }
            ).cubeLastPos.getD (cs.map fun c => ⟨c.x, c.z⟩)).length := by
        rw [recordPlayer_cubeLastPos]
        show cs.length ≤ (s.cubeLastPos.getD (cs.map fun c => ⟨c.x, c.z⟩)).length
        cases hlp : s.cubeLastPos with
        | none =>
          rw [Option.getD_none, List.length_map]
        | some lp =>
          rw [Option.getD_some]
          rw [hlp] at h
          exact h
      obtain ⟨⟨ne, lp2⟩, hr⟩ := cubeLoopGo_ok time cs 0
        ((recordPlayer cfg time p og { s with timeNode := time * 2 }
          ).cubeLastPos.getD (cs.map fun c => ⟨c.x, c.z⟩)) []
        (by simpa using hlen)
      have hrc : recordCubes cfg time cs
          (recordPlayer cfg time p og { s with timeNode := time * 2 }) =
          .ok { recordPlayer cfg time p og { s with timeNode := time * 2 } with
                cubeTrail := truncTrail cfg.CUBE_SLOTS
                  (pruneTrail time
                    ((recordPlayer cfg time p og
                      { s with timeNode := time * 2 }).cubeTrail ++ ne))
                cubeLastPos := some lp2 } := by
        unfold recordCubes cubeLoop
        rw [hr]
      exact ⟨_, update_cubes_some_ok _ _ _ _ _ _ _ hrc⟩

/-- Input sequence exhibiting the C7 failure: the first call remembers one
cube position; in the second call the cube list has grown to two entries, so
index 1 has no remembered previous position and `last.x` throws. -/
def C7_cex_inputs : List UpdateInput :=
  [⟨0, some ⟨.num 0, .num 0⟩, false, some [⟨.num 0, .num 0⟩]⟩,
   ⟨0.1, some ⟨.num 0, .num 0⟩, false,
    some [⟨.num 0, .num 0⟩, ⟨.num 5, .num 5⟩]⟩]

/-- C7 counterexample: when the cubePositions list grows between frames,
update raises a TypeError (undefined remembered position) instead of
completing, so the failure does propagate to the host application. -/
theorem C7_counterexample :
    runUpdates desktopConfig (initGrassState desktopConfig) C7_cex_inputs =
      .error .typeError := by
  norm_num [C7_cex_inputs, runUpdates, Grass.update, recordPlayer,
    recordCubes, cubeLoop, cubeLoopGo, repack, pruneTrail, truncTrail,
    takeLast, initGrassState, desktopConfig, SAMPLE_INTERVAL, HOLD_TIME,
    FADE_TIME, MOVE_THRESHOLD_SQ, JSVal.sub, JSVal.mul, JSVal.add, JSVal.gtb]

/-- Witness for C7: a first call with one cube and no remembered list. -/
theorem C7_witness :
    (match some [(⟨.num 0, .num 0⟩ : JSPos)],
        (initGrassState desktopConfig).cubeLastPos with
      | some cs, some lp => cs.length ≤ lp.length
      | _, _ => True) ∧
    ∃ s', Grass.update desktopConfig (initGrassState desktopConfig) 1
      (some ⟨.num 0, .num 0⟩) true (some [⟨.num 0, .num 0⟩]) = .ok s' :=
  ⟨trivial, C7_no_error_when_not_grown desktopConfig
    (initGrassState desktopConfig) 1 (some ⟨.num 0, .num 0⟩) true
    (some [⟨.num 0, .num 0⟩]) trivial⟩

/-- C8 (amended): the recorder skips the primary sample only when playerPos
is absent (falsy) — the whole call is then a no-op apart from the time
uniform.  Samples with NaN coordinates are NOT detected: whenever the
grounded/interval gate passes, the entry (p.x, p.z, now) is appended to the
primary trail whatever values p holds, NaN included (see counterexample). -/
theorem C8_invalid_sample_handling :
    (∀ cfg s time og cubes,
      Grass.update cfg s time none og cubes =
        .ok { s with timeNode := time * 2 }) ∧
    (∀ cfg s time p og cubes s', 0 < cfg.PLAYER_SLOTS → og = true →
      SAMPLE_INTERVAL < time - s.lastSampleTime →
      Grass.update cfg s time (some p) og cubes = .ok s' →
      Entry.mk p.x p.z time ∈ s'.playerTrail) := by
  constructor
  · exact fun cfg s time og cubes => rfl
  · intro cfg s time p og cubes s' hpos hg hi h
    cases cubes with
    | none =>
      rw [update_cubes_none] at h
      injection h with h
      subst h
      rw [repack_playerTrail]
      exact recordPlayer_mem_new cfg time p og
        { s with timeNode := time * 2 } hg hi hpos
    | some cs =>
      obtain ⟨s2, hrc, rfl⟩ := update_cubes_some_inv _ _ _ _ _ _ _ h
      obtain ⟨hpt, -, -, -, -⟩ := recordCubes_ok_fields _ _ _ _ _ hrc
      rw [repack_playerTrail, hpt]
      exact recordPlayer_mem_new cfg time p og
        { s with timeNode := time * 2 } hg hi hpos

/-- C8 counterexample: a sample whose coordinates are both NaN is truthy, so
it passes the `if (!playerPos) return` check, and no further validation
exists: the recorder appends the NaN entry to the primary trail instead of
skipping the sample. -/
theorem C8_counterexample :
    (Grass.update desktopConfig (initGrassState desktopConfig) 0.2
        (some ⟨.nan, .nan⟩) true none).toOption.map GrassState.playerTrail =
      some [⟨.nan, .nan, 0.2⟩] := by
  norm_num [Grass.update, recordPlayer, recordCubes, repack, pruneTrail,
    truncTrail, takeLast, initGrassState, desktopConfig, SAMPLE_INTERVAL,
    HOLD_TIME, FADE_TIME]
  exact ⟨_, rfl, rfl⟩

/-- The state reached by the NaN-sample call of the C8 witness. -/
def C8_witness_state : GrassState where
  playerTrail := [⟨.nan, .nan, 0.2⟩]
  cubeTrail := []
  lastSampleTime := 0.2
  lastCubeSampleTime := 0
  cubeLastPos := none
  slots := packSlots desktopConfig 0.2 [⟨.nan, .nan, 0.2⟩] []
  cubePosNode := List.replicate (CUBE_COUNT * 2) (.num 99999)
  timeNode := 0.4

/-- Witness for C8: the no-playerPos part at an arbitrary concrete state and
the append part at the NaN sample of the counterexample. -/
theorem C8_witness :
    (Grass.update desktopConfig (initGrassState desktopConfig) 1 none true
        none = .ok { initGrassState desktopConfig with timeNode := 1 * 2 }) ∧
    (0 < desktopConfig.PLAYER_SLOTS ∧
      SAMPLE_INTERVAL < (0.2 : ℚ) - (initGrassState desktopConfig).lastSampleTime ∧
      Grass.update desktopConfig (initGrassState desktopConfig) 0.2
        (some ⟨.nan, .nan⟩) true none = .ok C8_witness_state ∧
      Entry.mk JSVal.nan JSVal.nan 0.2 ∈ C8_witness_state.playerTrail) := by
  have h : Grass.update desktopConfig (initGrassState desktopConfig) 0.2
      (some ⟨.nan, .nan⟩) true none = .ok C8_witness_state := by
    norm_num [C8_witness_state, Grass.update, recordPlayer, recordCubes,
      repack, pruneTrail, truncTrail, takeLast, initGrassState, desktopConfig,
      SAMPLE_INTERVAL, HOLD_TIME, FADE_TIME]
  refine ⟨C8_invalid_sample_handling.1 desktopConfig
    (initGrassState desktopConfig) 1 true none, ?_, ?_, h, ?_⟩
  · norm_num [desktopConfig]
  · norm_num [initGrassState, SAMPLE_INTERVAL]
  · exact C8_invalid_sample_handling.2 desktopConfig
      (initGrassState desktopConfig) 0.2 ⟨.nan, .nan⟩ true none
      C8_witness_state (by norm_num [desktopConfig])
      rfl (by norm_num [initGrassState, SAMPLE_INTERVAL]) h

/-- C2: every successful recording frame uploads exactly
packSlots(now, playerTrail, cubeTrail); and whenever the primary trail holds
k ≤ TRAIL_SIZE entries, packed slots 0..k-1 are exactly the primary trail in
insertion (chronological) order with age now - t — whatever the secondary
trail holds — the following slots are filled from the secondary trail in
order, and every slot left after both trails hold the sentinel values. -/
theorem C2_pack_priority :
    (∀ cfg s time p og cubes s',
      Grass.update cfg s time (some p) og cubes = .ok s' →
      s'.slots = packSlots cfg time s'.playerTrail s'.cubeTrail) ∧
    (∀ (cfg : GrassConfig) (time : ℚ) (P C : List Entry),
      P.length ≤ cfg.TRAIL_SIZE →
      ((packSlots cfg time P C).length = cfg.TRAIL_SIZE ∧
       (∀ (i : ℕ) (e : Entry), P[i]? = some e →
         (packSlots cfg time P C)[i]? = some ⟨e.x, e.z, time - e.t⟩) ∧
       (∀ (j : ℕ) (e : Entry), C[j]? = some e →
         P.length + j < cfg.TRAIL_SIZE →
         (packSlots cfg time P C)[P.length + j]? =
           some ⟨e.x, e.z, time - e.t⟩) ∧
       (∀ i : ℕ, P.length + C.length ≤ i → i < cfg.TRAIL_SIZE →
         (packSlots cfg time P C)[i]? =
           some ⟨.num 99999, .num 99999, 9999⟩))) := by
  constructor
  · intro cfg s time p og cubes s' h
    cases cubes with
    | none =>
      rw [update_cubes_none] at h
      injection h with h
      subst h
      rfl
    | some cs =>
      obtain ⟨s2, hrc, rfl⟩ := update_cubes_some_inv _ _ _ _ _ _ _ h
      rfl
  · intro cfg time P C hk
    have hps : packSlots cfg time P C =
        ((P ++ C).take cfg.TRAIL_SIZE).map (fun e => ⟨e.x, e.z, time - e.t⟩) ++
          List.replicate
            (cfg.TRAIL_SIZE - ((P ++ C).take cfg.TRAIL_SIZE).length)
            ⟨.num 99999, .num 99999, 9999⟩ := rfl
    have hlive : ((P ++ C).take cfg.TRAIL_SIZE).length =
        min cfg.TRAIL_SIZE (P.length + C.length) := by
      rw [List.length_take, List.length_append]
    refine ⟨?_, ?_, ?_, ?_⟩
    · rw [hps, List.length_append, List.length_map, List.length_replicate,
        hlive]
      omega
    · intro i e he
      have hi : i < P.length := by
        obtain ⟨h, -⟩ := List.getElem?_eq_some.mp he
        exact h
      rw [hps, List.getElem?_append, List.length_map]
      rw [if_pos (by rw [hlive]; omega)]
      rw [List.getElem?_map, List.getElem?_take, if_pos (by omega),
        List.getElem?_append, if_pos hi, he]
      rfl
    · intro j e he hj
      have hjC : j < C.length := by
        obtain ⟨h, -⟩ := List.getElem?_eq_some.mp he
        exact h
      rw [hps, List.getElem?_append, List.length_map]
      rw [if_pos (by rw [hlive]; omega)]
      rw [List.getElem?_map, List.getElem?_take, if_pos hj,
        List.getElem?_append_right (by omega),
        show P.length + j - P.length = j from by omega, he]
      rfl
    · intro i hge hlt
      have hmle : (((P ++ C).take cfg.TRAIL_SIZE).map
          (fun e : Entry => (⟨e.x, e.z, time - e.t⟩ : GpuSlot))).length ≤ i := by
        rw [List.length_map, hlive]
        omega
      rw [hps, List.getElem?_append_right hmle, List.getElem?_replicate,
        if_pos]
      rw [List.length_map, hlive]
      omega

/-- Witness for C2: one primary and one secondary entry on the desktop
configuration, checking a primary slot, the following secondary slot and a
sentinel slot. -/
theorem C2_witness :
    ([(⟨.num 7, .num 8, 0.5⟩ : Entry)].length ≤ desktopConfig.TRAIL_SIZE ∧
      [(⟨.num 7, .num 8, 0.5⟩ : Entry)][0]? = some ⟨.num 7, .num 8, 0.5⟩ ∧
      [(⟨.num 1, .num 2, 0.25⟩ : Entry)][0]? = some ⟨.num 1, .num 2, 0.25⟩) ∧
    (packSlots desktopConfig 1 [⟨.num 7, .num 8, 0.5⟩]
        [⟨.num 1, .num 2, 0.25⟩]).length = desktopConfig.TRAIL_SIZE ∧
    (packSlots desktopConfig 1 [⟨.num 7, .num 8, 0.5⟩]
        [⟨.num 1, .num 2, 0.25⟩])[0]? =
      some ⟨.num 7, .num 8, 1 - (0.5 : ℚ)⟩ ∧
    (packSlots desktopConfig 1 [⟨.num 7, .num 8, 0.5⟩]
        [⟨.num 1, .num 2, 0.25⟩])[1]? =
      some ⟨.num 1, .num 2, 1 - (0.25 : ℚ)⟩ ∧
    (packSlots desktopConfig 1 [⟨.num 7, .num 8, 0.5⟩]
        [⟨.num 1, .num 2, 0.25⟩])[5]? =
      some ⟨.num 99999, .num 99999, 9999⟩ := by
  have hk : [(⟨.num 7, .num 8, 0.5⟩ : Entry)].length ≤
      desktopConfig.TRAIL_SIZE := by
    norm_num [desktopConfig]
  have h := C2_pack_priority.2 desktopConfig 1 [⟨.num 7, .num 8, 0.5⟩]
    [⟨.num 1, .num 2, 0.25⟩] hk
  refine ⟨⟨hk, rfl, rfl⟩, h.1, h.2.1 0 _ rfl, ?_, ?_⟩
  · exact h.2.2.1 0 ⟨.num 1, .num 2, 0.25⟩ rfl (by norm_num [desktopConfig])
  · exact h.2.2.2 5 (by norm_num) (by norm_num [desktopConfig])

/-- Lift a rational (x, z) pair to the JS position it is passed as. -/
def toJSPos (q : ℚ × ℚ) : JSPos := ⟨.num q.1, .num q.2⟩

/-- The movement gate of the cube recorder, stated over the rationals:
squared distance between the current and the remembered position exceeds
MOVE_THRESHOLD_SQ. -/
def cubeMoved (last cur : ℚ × ℚ) : Bool :=
  decide (MOVE_THRESHOLD_SQ <
    (cur.1 - last.1) * (cur.1 - last.1) + (cur.2 - last.2) * (cur.2 - last.2))

theorem set_append_mid (pre : List JSPos) (a b : JSPos) (l : List JSPos) :
    (pre ++ a :: l).set pre.length b = pre ++ b :: l := by
  rw [List.set_append]
  simp

theorem cubeLoopGo_spec (now : ℚ) (cubes : List (ℚ × ℚ)) :
    ∀ (lastPos : List (ℚ × ℚ)) (pre : List JSPos) (acc : List Entry),
      lastPos.length = cubes.length →
      cubeLoopGo now (cubes.map toJSPos) pre.length
          (pre ++ lastPos.map toJSPos) acc =
        .ok (acc ++ ((lastPos.zip cubes).filter
              (fun lc => cubeMoved lc.1 lc.2)).map
              (fun lc => ⟨.num lc.1.1, .num lc.1.2, now⟩),
          pre ++ (lastPos.zip cubes).map fun lc =>
            if cubeMoved lc.1 lc.2 then toJSPos lc.2 else toJSPos lc.1) := by
  induction cubes with
  | nil =>
    intro lastPos pre acc h
    obtain rfl := List.length_eq_zero.mp h
    simp [cubeLoopGo]
  | cons c cs ih =>
    intro lastPos pre acc h
    cases lastPos with
    | nil => simp at h
    | cons l ls =>
      have hlen : ls.length = cs.length := by simpa using h
      rw [List.map_cons, List.map_cons]
      unfold cubeLoopGo
      rw [show (pre ++ toJSPos l :: List.map toJSPos ls)[pre.length]? =
          some (toJSPos l) from by
        rw [List.getElem?_append_right (le_refl _), Nat.sub_self]
        simp]
      dsimp only
      simp only [toJSPos, JSVal.sub, JSVal.mul, JSVal.add, JSVal.gtb]
      by_cases hm : MOVE_THRESHOLD_SQ <
          (c.1 - l.1) * (c.1 - l.1) + (c.2 - l.2) * (c.2 - l.2)
      · rw [if_pos (by exact decide_eq_true hm)]
        have hset : (pre ++ JSPos.mk (JSVal.num l.1) (JSVal.num l.2) ::
            List.map toJSPos ls).set pre.length
              ⟨JSVal.num c.1, JSVal.num c.2⟩ =
            pre ++ JSPos.mk (JSVal.num c.1) (JSVal.num c.2) ::
              List.map toJSPos ls := set_append_mid _ _ _ _
        rw [hset,
          List.append_cons pre (JSPos.mk (JSVal.num c.1) (JSVal.num c.2)),
          show pre.length + 1 =
            (pre ++ [JSPos.mk (JSVal.num c.1) (JSVal.num c.2)]).length from
              by simp]
        have hih := ih ls (pre ++ [JSPos.mk (JSVal.num c.1) (JSVal.num c.2)])
          (acc ++ [(⟨JSVal.num l.1, JSVal.num l.2, now⟩ : Entry)]) hlen
        rw [show List.map toJSPos cs = cs.map toJSPos from rfl]
        refine hih.trans ?_
        have hmB : cubeMoved (l, c).1 (l, c).2 = true := decide_eq_true hm
        simp [List.zip_cons_cons, List.filter_cons, hmB, toJSPos]
      · rw [if_neg (by simp [hm])]
        rw [List.append_cons pre (JSPos.mk (JSVal.num l.1) (JSVal.num l.2)),
          show pre.length + 1 =
            (pre ++ [JSPos.mk (JSVal.num l.1) (JSVal.num l.2)]).length from
              by simp]
        have hih := ih ls (pre ++ [JSPos.mk (JSVal.num l.1) (JSVal.num l.2)])
          acc hlen
        rw [show List.map toJSPos cs = cs.map toJSPos from rfl]
        refine hih.trans ?_
        have hmB : cubeMoved (l, c).1 (l, c).2 = false := by
          simp [cubeMoved, hm]
        simp [List.zip_cons_cons, List.filter_cons, hmB, toJSPos]

/-- C9: under a constant-length secondary list with initialized remembered
positions, the cube-recording loop appends a footprint for exactly the
indices whose squared displacement exceeds MOVE_THRESHOLD_SQ, in index
order; each appended entry holds the remembered OLD position with t = now,
and the remembered position of exactly those indices is replaced by the
current position. -/
theorem C9_cube_movement_gate (now : ℚ) (cubes lastPos : List (ℚ × ℚ))
    (h : lastPos.length = cubes.length) :
    cubeLoop now (cubes.map toJSPos) (lastPos.map toJSPos) =
      .ok (((lastPos.zip cubes).filter
            (fun lc => cubeMoved lc.1 lc.2)).map
            (fun lc => ⟨.num lc.1.1, .num lc.1.2, now⟩),
        (lastPos.zip cubes).map fun lc =>
          if cubeMoved lc.1 lc.2 then toJSPos lc.2 else toJSPos lc.1) := by
  have h0 := cubeLoopGo_spec now cubes lastPos [] [] h
  simpa [cubeLoop] using h0

/-- Witness for C9: one cube that moved from (0, 0) to (1, 0): the appended
footprint holds the old position (0, 0) with t = now = 5, and the remembered
position becomes (1, 0). -/
theorem C9_witness :
    ([((0 : ℚ), (0 : ℚ))].length = [((1 : ℚ), (0 : ℚ))].length) ∧
    cubeLoop 5 ([((1 : ℚ), (0 : ℚ))].map toJSPos)
        ([((0 : ℚ), (0 : ℚ))].map toJSPos) =
      .ok ([⟨.num 0, .num 0, 5⟩], [⟨.num 1, .num 0⟩]) := by
  constructor
  · rfl
  · rw [C9_cube_movement_gate 5 [((1 : ℚ), (0 : ℚ))] [((0 : ℚ), (0 : ℚ))] rfl]
    norm_num [cubeMoved, MOVE_THRESHOLD_SQ, toJSPos]

end Threefolio
